import Mathlib

/-!
# BrandCurator — verification of the catalog filtering / normalization core

Shallow embedding of the catalog engine of `src/App.tsx` (enrichment merge,
facet filter, store normalization, delete handlers), together with the shared
text / price utilities.  The utilities (`formatDescription`,
`normalizeStoreName`, `compareStoreNames`, `getPriceBucket`, the localization
lookup `t`) live outside the provided sources, so they are modelled from the
specification where noted.
-/

namespace BrandCurator

/-! ## Character-list text utilities

Strings are processed through their character lists so that every definition
is structural and evaluable by the kernel. -/

/-- Drop leading and trailing whitespace; models JavaScript `String.trim`. -/
def trimChars (cs : List Char) : List Char :=
  ((cs.dropWhile Char.isWhitespace).reverse.dropWhile Char.isWhitespace).reverse

/-- Models JavaScript `String.trim`. -/
def trimStr (s : String) : String := String.mk (trimChars s.data)

/-- Models JavaScript `String.toLowerCase` (ASCII case folding). -/
def lowerStr (s : String) : String := String.mk (s.data.map Char.toLower)

/-- `startsWithChars n h` is true when `n` is an initial segment of `h`. -/
def startsWithChars : List Char → List Char → Bool
  | [], _ => true
  | _ :: _, [] => false
  | a :: as, b :: bs => a == b && startsWithChars as bs

/-- `hasSegment n h` is true when `n` occurs contiguously inside `h`. -/
def hasSegment (n : List Char) : List Char → Bool
  | [] => n.isEmpty
  | c :: t => startsWithChars n (c :: t) || hasSegment n t

/-- `containsSubstr h n` models JavaScript `h.includes(n)`. -/
def containsSubstr (h n : String) : Bool := hasSegment n.data h.data

/-- Split a character list into maximal whitespace-free words. -/
def wordsAux (acc : List Char) : List Char → List (List Char)
  | [] => if acc.isEmpty then [] else [acc.reverse]
  | c :: cs =>
    if c.isWhitespace then
      if acc.isEmpty then wordsAux [] cs else acc.reverse :: wordsAux [] cs
    else wordsAux (c :: acc) cs

/-- Join words with single spaces. -/
def joinWords : List (List Char) → List Char
  | [] => []
  | [w] => w
  | w :: ws => w ++ ' ' :: joinWords ws

/-- Trim and collapse internal whitespace runs to single spaces. -/
def collapseWs (s : String) : String := String.mk (joinWords (wordsAux [] s.data))

/-! ## A total lexicographic comparison on strings -/

/-- Lexicographic three-way comparison of character lists. -/
def listCompare : List Char → List Char → Ordering
  | [], [] => Ordering.eq
  | [], _ :: _ => Ordering.lt
  | _ :: _, [] => Ordering.gt
  | a :: as, b :: bs =>
    if a < b then Ordering.lt else if b < a then Ordering.gt else listCompare as bs

/-- Lexicographic three-way comparison of strings. -/
def strCompare (a b : String) : Ordering := listCompare a.data b.data

/-! ## Shared utilities

These live in `src/utils/` which is not part of the provided sources; they are
modelled from the specification (§4.1, §4.2 and the localization note). -/

/-- Modelled from the spec: `formatDescription` (§4.1) normalizes whitespace
without truncation and is idempotent.  The source file
`src/utils/textFormatter.ts` is not provided. -/
def formatDescription (s : String) : String := collapseWs s

/-- Modelled from the spec: `normalizeName` (§4.1) trims, collapses internal
whitespace and compares case-insensitively.  The source file
`src/utils/textFormatter.ts` is not provided. -/
def normalizeStoreName (s : String) : String := lowerStr (collapseWs s)

/-- Modelled from the spec: `compareNames` (§4.1) is a total order consistent
with `normalizeName`, ties broken by raw string comparison.  The source file
`src/utils/textFormatter.ts` is not provided. -/
def compareStoreNames (a b : String) : Ordering :=
  match strCompare (normalizeStoreName a) (normalizeStoreName b) with
  | Ordering.eq => strCompare a b
  | o => o

/-- Modelled from the spec: the localization lookup `t` of
`src/utils/localization.ts` (not provided); localization is out of scope, so
it is modelled as the identity on string keys. -/
def t (s : String) : String := s

/-- The closed price-bucket enumeration of §4.2. -/
inductive Bucket where
  | low
  | mid
  | high
  | ultra
deriving DecidableEq, Repr

/-- The string id a bucket is stored under in `filter.priceRanges`. -/
def bucketId : Bucket → String
  | Bucket.low => "low"
  | Bucket.mid => "mid"
  | Bucket.high => "high"
  | Bucket.ultra => "ultra"

/-- Modelled from the spec: the Price Bucket Classifier (§4.2) of
`src/utils/priceMapper.ts` (not provided).  Symbolic tiers map to the four
buckets, an already-classified bucket id maps to itself (idempotence), and
unrecognized input yields `none` ("unclassified"), which is excluded from
bucket-based filtering. -/
def getPriceBucket (p : String) : Option Bucket :=
  match lowerStr (trimStr p) with
  | "$" => some Bucket.low
  | "$$" => some Bucket.mid
  | "$$$" => some Bucket.high
  | "$$$$" => some Bucket.ultra
  | "low" => some Bucket.low
  | "mid" => some Bucket.mid
  | "high" => some Bucket.high
  | "ultra" => some Bucket.ultra
  | _ => none

/-- Modelled from the spec: the unclassified sentinel is represented as the
empty string when a classification result is stored back into the string-typed
`priceRange` field (the price facet treats it as no bucket membership). -/
def priceBucketId : Option Bucket → String
  | some b => bucketId b
  | none => ""

/-! ## Data model (`src/types.ts`, reconstructed from §3 and usage) -/

/-- Provenance snapshot `addedBy` of a store. -/
structure AddedBy where
  userId : String
  userName : String
deriving DecidableEq, Repr

/-- One catalog entry (§3 `Store`). -/
structure Store where
  id : String
  collectionId : String
  store_name : String
  description : String
  website : String
  country : String
  city : String
  tags : List String
  priceRange : String
  onSale : Bool
  isArchived : Bool
  rating : Nat
  sustainability : String
  customFields : List (String × List String)
  addedBy : AddedBy
  favoritedBy : List String
  privateNotes : List String
  imageUrl : Option String
deriving DecidableEq, Repr

/-- A named ordered subset of a collection's stores, by reference (§3). -/
structure Folio where
  id : String
  name : String
  themeId : String
  storeIds : List String
  createdAt : String
deriving DecidableEq, Repr

/-- A named bag of stores plus folios (§3). -/
structure Collection where
  id : String
  ownerId : String
  name : String
  stores : List Store
  folios : List Folio
deriving DecidableEq, Repr

/-- The transient filter state `StoreFilters` of `src/App.tsx`; the
`customFields` record is modelled as an association list. -/
structure StoreFilters where
  search : String
  tags : List String
  onSale : Bool
  priceRanges : List String
  customFields : List (String × List String)
deriving DecidableEq, Repr

/-- A raw `Partial<Store>` payload: every field may be absent. -/
structure RawStore where
  store_name : Option String := none
  description : Option String := none
  website : Option String := none
  country : Option String := none
  city : Option String := none
  priceRange : Option String := none
  sustainability : Option String := none
  tags : Option (List String) := none
  rating : Option Nat := none
  customFields : Option (List (String × List String)) := none
  onSale : Option Bool := none
  isArchived : Option Bool := none
  imageUrl : Option String := none
deriving DecidableEq, Repr

/-! ## Enrichment merger (`handleEnrichComplete`, src/App.tsx lines 248–275) -/

/-- The sentinel non-value test `/^(none|n\/a|na|false)$/i.test(x.trim())` of
src/App.tsx lines 257–258. -/
def isSentinel (x : String) : Bool :=
  [("none" : String), "n/a", "na", "false"].contains (lowerStr (trimStr x))

/-- First half of the merge body (src/App.tsx lines 257, 260–262): fill the
website only when the existing one is empty or a sentinel. -/
def mergeWebsite (s e : Store) : Store :=
  if e.website != "" && (s.website == "" || isSentinel s.website) then
    { s with website := e.website }
  else s

/-- `mergeEnrichment` — the per-store non-destructive merge of
src/App.tsx lines 255–269: fill website and description only when the
existing field is empty per its field-specific test; accepted descriptions
pass through `formatDescription`. -/
def mergeEnrichment (s e : Store) : Store :=
  let u := mergeWebsite s e
  if e.description != ""
      && (s.description == "" || decide (s.description.length < 10)
            || isSentinel s.description) then
    { u with description := formatDescription e.description }
  else u

/-- The per-store step of `handleEnrichComplete` (src/App.tsx lines 251–253):
look up the matching enrichment payload by id, pass through when absent. -/
def enrichStep (enriched : List Store) (s : Store) : Store :=
  match enriched.find? (fun e => e.id == s.id) with
  | some e => mergeEnrichment s e
  | none => s

/-- The list-level merge of `handleEnrichComplete` (src/App.tsx line 251). -/
def enrichStores (enriched : List Store) (stores : List Store) : List Store :=
  stores.map (enrichStep enriched)

/-! ## Store creation (`handleAddStore`, src/App.tsx lines 234–239) -/

/-- `handleAddStore` (src/App.tsx line 236): spread the raw payload first,
then overwrite identity, provenance and a block of fields with defaults.
Only `priceRange` and `tags` fall back to the supplied value; `description`,
`country`, `city`, `rating`, `sustainability` and `customFields` are reset
unconditionally. -/
def handleAddStore (storeData : RawStore) (freshId collId : String)
    (user : AddedBy) : Store :=
  { id := freshId
    collectionId := collId
    addedBy := user
    store_name := storeData.store_name.getD ""
    website := storeData.website.getD ""
    onSale := storeData.onSale.getD false
    isArchived := storeData.isArchived.getD false
    imageUrl := storeData.imageUrl
    favoritedBy := []
    privateNotes := []
    customFields := []
    rating := 0
    priceRange := storeData.priceRange.getD ""
    sustainability := ""
    description := ""
    country := ""
    city := ""
    tags := storeData.tags.getD [] }

/-- The per-record normalization of `ImportModal.onComplete`
(src/App.tsx line 421): keep supplied scalars, lowercase + trim each tag,
classify the price, attach identity and provenance. -/
def importStore (s : RawStore) (freshId collId : String)
    (user : AddedBy) : Store :=
  { id := freshId
    collectionId := collId
    addedBy := user
    store_name := s.store_name.getD ""
    description := s.description.getD ""
    website := s.website.getD ""
    country := s.country.getD ""
    city := s.city.getD ""
    tags := (s.tags.getD []).map (fun tg => trimStr (lowerStr tg))
    priceRange := priceBucketId (getPriceBucket (s.priceRange.getD ""))
    onSale := s.onSale.getD false
    isArchived := s.isArchived.getD false
    rating := s.rating.getD 0
    sustainability := s.sustainability.getD ""
    customFields := s.customFields.getD []
    favoritedBy := []
    privateNotes := []
    imageUrl := s.imageUrl }

/-! ## Deletion (`handleDeleteStore` lines 283–288, `handleBulkDelete`
lines 345–352 of src/App.tsx) -/

/-- Single delete: drop the store from the store list; folios untouched. -/
def handleDeleteStore (storeId : String) (c : Collection) : Collection :=
  { c with stores := c.stores.filter (fun s => s.id != storeId) }

/-- Bulk delete: drop every selected store from the store list and the
selected ids from every folio. -/
def handleBulkDelete (sel : List String) (c : Collection) : Collection :=
  { c with
    stores := c.stores.filter (fun s => !sel.contains s.id)
    folios := c.folios.map
      (fun f => { f with storeIds := f.storeIds.filter (fun i => !sel.contains i) }) }

/-! ## Facet filter engine (`filteredStores`, src/App.tsx lines 354–367) -/

/-- Custom-field lookup `store.customFields[field] || []` (line 364). -/
def lookupCustomField (s : Store) (field : String) : List String :=
  ((s.customFields.find? (fun p => p.1 == field)).map Prod.snd).getD []

/-- Search clause (line 359). -/
def matchesSearch (f : StoreFilters) (s : Store) : Bool :=
  let searchLower := lowerStr (trimStr f.search)
  searchLower == "" ||
    (containsSubstr (lowerStr s.store_name) searchLower ||
      containsSubstr (lowerStr (t s.city)) searchLower ||
      containsSubstr (lowerStr (t s.country)) searchLower ||
      s.tags.any (fun tag => containsSubstr (lowerStr tag) searchLower))

/-- Archive-visibility clause (line 360):
`showArchived ? !!store.isArchived : !store.isArchived`. -/
def matchesArchive (viewArchived : Bool) (s : Store) : Bool :=
  s.isArchived == viewArchived

/-- Tags clause (line 361): every selected tag must be on the store. -/
def matchesTags (f : StoreFilters) (s : Store) : Bool :=
  f.tags.isEmpty || f.tags.all (fun tag => s.tags.contains tag)

/-- Sale clause (line 362). -/
def matchesSale (f : StoreFilters) (s : Store) : Bool :=
  !f.onSale || s.onSale

/-- Price clause (line 363): vacuous when no bucket is selected, otherwise the
store's price must be non-empty and classify into a selected bucket. -/
def matchesPrice (f : StoreFilters) (s : Store) : Bool :=
  f.priceRanges.isEmpty ||
    (s.priceRange != "" &&
      (match getPriceBucket s.priceRange with
        | some b => f.priceRanges.contains (bucketId b)
        | none => false))

/-- Custom-fields clause (line 364): AND across fields, OR within a field,
empty option sets impose no constraint. -/
def matchesCustomFields (f : StoreFilters) (s : Store) : Bool :=
  f.customFields.all
    (fun p => p.2.isEmpty || p.2.any (fun opt => (lookupCustomField s p.1).contains opt))

/-- The full per-store filter predicate (lines 358–365). -/
def filterPredicate (f : StoreFilters) (viewArchived : Bool) (s : Store) : Bool :=
  matchesSearch f s && matchesArchive viewArchived s && matchesTags f s
    && matchesSale f s && matchesPrice f s && matchesCustomFields f s

/-- The sort order used on line 366: `compareStoreNames` on `store_name`,
as a non-strict relation. -/
def storeLE (a b : Store) : Prop :=
  compareStoreNames a.store_name b.store_name ≠ Ordering.gt

instance storeLE.instDecidable : DecidableRel storeLE := fun a b => by
  unfold storeLE; infer_instance

/-- `filterAndSort` — the `filteredStores` computation (lines 354–367):
filter by the facet predicate, then sort by `compareStoreNames` on
`store_name` (a stable sort, modelling `Array.prototype.sort`). -/
def filterAndSort (stores : List Store) (f : StoreFilters) (viewArchived : Bool) :
    List Store :=
  List.insertionSort storeLE (stores.filter (filterPredicate f viewArchived))

/-! ## Concrete values used by witnesses and counterexamples -/

/-- A fixed provenance snapshot. -/
def addedByMain : AddedBy := { userId := "u1", userName := "User One" }

/-- A store with every field at its neutral default. -/
def baseStore : Store :=
  { id := "s1"
    collectionId := "c1"
    store_name := "Acme"
    description := ""
    website := ""
    country := ""
    city := ""
    tags := []
    priceRange := ""
    onSale := false
    isArchived := false
    rating := 0
    sustainability := ""
    customFields := []
    addedBy := addedByMain
    favoritedBy := []
    privateNotes := []
    imageUrl := none }

/-- The all-vacuous filter state. -/
def emptyFilters : StoreFilters :=
  { search := "", tags := [], onSale := false, priceRanges := [], customFields := [] }

/-- The field-specific emptiness of `website` (§4.5, src/App.tsx line 257):
blank, or a sentinel non-value after trimming, case-insensitively. -/
def websiteConsideredEmpty (s : Store) : Prop :=
  s.website = "" ∨ isSentinel s.website = true

/-- The field-specific emptiness of `description` (§4.5, src/App.tsx
line 258): blank, shorter than 10 characters, or a sentinel non-value. -/
def descriptionConsideredEmpty (s : Store) : Prop :=
  s.description = "" ∨ s.description.length < 10 ∨ isSentinel s.description = true

instance (s : Store) : Decidable (websiteConsideredEmpty s) := by
  unfold websiteConsideredEmpty; infer_instance

instance (s : Store) : Decidable (descriptionConsideredEmpty s) := by
  unfold descriptionConsideredEmpty; infer_instance

/-- `b` agrees with `a` on every store field other than `website` and
`description`. -/
def agreesOutsideEnrichment (a b : Store) : Prop :=
  b.id = a.id ∧ b.collectionId = a.collectionId ∧ b.store_name = a.store_name ∧
    b.country = a.country ∧ b.city = a.city ∧ b.tags = a.tags ∧
    b.priceRange = a.priceRange ∧ b.onSale = a.onSale ∧
    b.isArchived = a.isArchived ∧ b.rating = a.rating ∧
    b.sustainability = a.sustainability ∧ b.customFields = a.customFields ∧
    b.addedBy = a.addedBy ∧ b.favoritedBy = a.favoritedBy ∧
    b.privateNotes = a.privateNotes ∧ b.imageUrl = a.imageUrl

/-- A raw payload that supplies values for the fields `handleAddStore`
resets, plus untransformed tags. -/
def rawNice : RawStore :=
  { store_name := some "Nice"
    description := some "A lovely shop"
    country := some "FR"
    priceRange := some "$$"
    sustainability := some "eco"
    tags := some ["Red ", "red "]
    rating := some 4
    customFields := some [("Style", ["minimal"])] }

/-- A two-store collection with one folio referencing both stores. -/
def collX : Collection :=
  { id := "c1"
    ownerId := "u1"
    name := "Main"
    stores := [baseStore, { baseStore with id := "s2", store_name := "Zen" }]
    folios := [{ id := "f1", name := "F", themeId := "th",
                 storeIds := ["s1", "s2"], createdAt := "" }] }

end BrandCurator

namespace BrandCurator

theorem listCompare_eq_iff : ∀ as bs : List Char, listCompare as bs = Ordering.eq ↔ as = bs := by
  intro as
  induction as with
  | nil => intro bs; cases bs <;> simp [listCompare]
  | cons a as ih =>
    intro bs
    cases bs with
    | nil => simp [listCompare]
    | cons b bs =>
      simp only [listCompare]
      by_cases hab : a < b
      · simp only [if_pos hab]
        constructor
        · intro h; exact absurd h (by simp)
        · intro h
          obtain ⟨rfl, rfl⟩ : a = b ∧ as = bs := by
            constructor <;> injection h
          exact absurd hab (lt_irrefl a)
      · by_cases hba : b < a
        · simp only [if_neg hab, if_pos hba]
          constructor
          · intro h; exact absurd h (by simp)
          · intro h
            obtain ⟨rfl, rfl⟩ : a = b ∧ as = bs := by
              constructor <;> injection h
            exact absurd hba (lt_irrefl a)
        · have hEq : a = b := le_antisymm (not_lt.mp hba) (not_lt.mp hab)
          subst hEq
          simp only [if_neg hab, if_neg hba, ih bs]
          constructor
          · intro h; rw [h]
          · intro h; injection h

theorem listCompare_swap :
    ∀ as bs : List Char, listCompare bs as = (listCompare as bs).swap := by
  intro as
  induction as with
  | nil => intro bs; cases bs <;> simp [listCompare, Ordering.swap]
  | cons a as ih =>
    intro bs
    cases bs with
    | nil => simp [listCompare, Ordering.swap]
    | cons b bs =>
      simp only [listCompare]
      by_cases hab : a < b
      · have hba : ¬ b < a := lt_asymm hab
        simp [if_pos hab, if_neg hba, Ordering.swap]
      · by_cases hba : b < a
        · simp [if_pos hba, if_neg hab, Ordering.swap]
        · simp only [if_neg hab, if_neg hba]
          exact ih bs

theorem listCompare_le_trans :
    ∀ as bs cs : List Char, listCompare as bs ≠ Ordering.gt →
      listCompare bs cs ≠ Ordering.gt → listCompare as cs ≠ Ordering.gt := by
  intro as
  induction as with
  | nil =>
    intro bs cs _ _
    cases cs <;> simp [listCompare]
  | cons a as ih =>
    intro bs cs h1 h2
    cases bs with
    | nil => exact absurd rfl h1
    | cons b bs =>
      cases cs with
      | nil => exact absurd rfl h2
      | cons c cs =>
        simp only [listCompare] at h1 h2 ⊢
        by_cases hab : a < b
        · by_cases hbc : b < c
          · have hac : a < c := lt_trans hab hbc
            simp [if_pos hac]
          · have hcb : ¬ c < b := by
              intro hcb
              by_cases hbc' : b < c
              · exact hbc hbc'
              · simp only [if_neg hbc, if_pos hcb] at h2; exact h2 rfl
            have hbc' : b = c := le_antisymm (not_lt.mp hcb) (not_lt.mp hbc)
            subst hbc'
            simp [if_pos hab]
        · have hba : ¬ b < a := by
            intro hba
            simp only [if_neg hab, if_pos hba] at h1; exact h1 rfl
          have hab' : a = b := le_antisymm (not_lt.mp hba) (not_lt.mp hab)
          subst hab'
          have h1' : listCompare as bs ≠ Ordering.gt := by
            simpa [if_neg hab, if_neg hba] using h1
          by_cases hbc : a < c
          · simp [if_pos hbc]
          · have hcb : ¬ c < a := by
              intro hcb
              simp only [if_neg hbc, if_pos hcb] at h2; exact h2 rfl
            have hbc' : a = c := le_antisymm (not_lt.mp hcb) (not_lt.mp hbc)
            subst hbc'
            have h2' : listCompare bs cs ≠ Ordering.gt := by
              simpa [if_neg hbc, if_neg hcb] using h2
            simpa [if_neg hbc, if_neg hcb] using ih bs cs h1' h2'

end BrandCurator

namespace BrandCurator

/-! ## String comparison: basic facts -/

theorem strCompare_eq_iff (a b : String) : strCompare a b = Ordering.eq ↔ a = b := by
  unfold strCompare
  rw [listCompare_eq_iff]
  constructor
  · intro h
    cases a with
    | mk da => cases b with
      | mk db => exact congrArg String.mk h
  · intro h; rw [h]

theorem strCompare_swap (a b : String) : strCompare b a = (strCompare a b).swap :=
  listCompare_swap a.data b.data

theorem strCompare_le_trans (a b c : String) :
    strCompare a b ≠ Ordering.gt → strCompare b c ≠ Ordering.gt →
      strCompare a c ≠ Ordering.gt :=
  listCompare_le_trans a.data b.data c.data

theorem strCompare_lt_trans (a b c : String) :
    strCompare a b = Ordering.lt → strCompare b c = Ordering.lt →
      strCompare a c = Ordering.lt := by
  intro h1 h2
  have hle : strCompare a c ≠ Ordering.gt :=
    strCompare_le_trans a b c (by simp [h1]) (by simp [h2])
  cases hoc : strCompare a c with
  | lt => rfl
  | eq =>
    have hac : a = c := (strCompare_eq_iff a c).mp hoc
    subst hac
    rw [strCompare_swap, h1] at h2
    exact absurd h2 (by simp [Ordering.swap])
  | gt => exact absurd hoc hle

theorem compareStoreNames_swap (a b : String) :
    compareStoreNames b a = (compareStoreNames a b).swap := by
  have h1 : strCompare (normalizeStoreName b) (normalizeStoreName a)
      = (strCompare (normalizeStoreName a) (normalizeStoreName b)).swap :=
    strCompare_swap _ _
  have h2 : strCompare b a = (strCompare a b).swap := strCompare_swap _ _
  unfold compareStoreNames
  rw [h1, h2]
  cases hx : strCompare (normalizeStoreName a) (normalizeStoreName b) <;>
    simp [Ordering.swap]

theorem compareStoreNames_eq_iff (a b : String) :
    compareStoreNames a b = Ordering.eq ↔ a = b := by
  unfold compareStoreNames
  cases hx : strCompare (normalizeStoreName a) (normalizeStoreName b) with
  | lt =>
    constructor
    · intro h; exact absurd h (by simp)
    · intro h
      subst h
      rw [(strCompare_eq_iff _ _).mpr rfl] at hx
      exact absurd hx (by simp)
  | eq => exact strCompare_eq_iff a b
  | gt =>
    constructor
    · intro h; exact absurd h (by simp)
    · intro h
      subst h
      rw [(strCompare_eq_iff _ _).mpr rfl] at hx
      exact absurd hx (by simp)

theorem compareStoreNames_ne_gt_iff (a b : String) :
    compareStoreNames a b ≠ Ordering.gt ↔
      (strCompare (normalizeStoreName a) (normalizeStoreName b) = Ordering.lt ∨
        (normalizeStoreName a = normalizeStoreName b ∧ strCompare a b ≠ Ordering.gt)) := by
  unfold compareStoreNames
  cases hx : strCompare (normalizeStoreName a) (normalizeStoreName b) with
  | lt => simp
  | eq =>
    have : normalizeStoreName a = normalizeStoreName b := (strCompare_eq_iff _ _).mp hx
    simp [this]
  | gt =>
    constructor
    · intro h; exact absurd rfl h
    · rintro (h | ⟨he, _⟩)
      · exact absurd h (by simp)
      · rw [(strCompare_eq_iff _ _).mpr he] at hx
        exact absurd hx (by simp)

theorem compareStoreNames_le_trans (a b c : String) :
    compareStoreNames a b ≠ Ordering.gt → compareStoreNames b c ≠ Ordering.gt →
      compareStoreNames a c ≠ Ordering.gt := by
  rw [compareStoreNames_ne_gt_iff, compareStoreNames_ne_gt_iff,
    compareStoreNames_ne_gt_iff]
  rintro (h1 | ⟨he1, h1⟩) (h2 | ⟨he2, h2⟩)
  · exact Or.inl (strCompare_lt_trans _ _ _ h1 h2)
  · rw [he2] at h1; exact Or.inl h1
  · rw [he1]; exact Or.inl h2
  · exact Or.inr ⟨he1.trans he2, strCompare_le_trans _ _ _ h1 h2⟩

theorem compareStoreNames_antisymm (a b : String) :
    compareStoreNames a b ≠ Ordering.gt → compareStoreNames b a ≠ Ordering.gt →
      a = b := by
  intro h1 h2
  rw [compareStoreNames_swap] at h2
  have hEq : compareStoreNames a b = Ordering.eq := by
    cases hx : compareStoreNames a b with
    | lt => rw [hx] at h2; exact absurd rfl h2
    | eq => rfl
    | gt => exact absurd hx h1
  exact (compareStoreNames_eq_iff a b).mp hEq

theorem compareStoreNames_total (a b : String) :
    compareStoreNames a b ≠ Ordering.gt ∨ compareStoreNames b a ≠ Ordering.gt := by
  rw [compareStoreNames_swap a b]
  cases hx : compareStoreNames a b <;> simp [Ordering.swap]

/-! ## The sort relation on stores -/

theorem storeLE_trans {a b c : Store} : storeLE a b → storeLE b c → storeLE a c :=
  compareStoreNames_le_trans a.store_name b.store_name c.store_name

theorem storeLE_total (a b : Store) : storeLE a b ∨ storeLE b a :=
  compareStoreNames_total a.store_name b.store_name

theorem storeLE_antisymm_names {a b : Store} :
    storeLE a b → storeLE b a → a.store_name = b.store_name :=
  compareStoreNames_antisymm a.store_name b.store_name

end BrandCurator

namespace BrandCurator

/-! ## Sorted permutations with distinct names are equal -/

theorem sorted_perm_eq_of_distinct_names :
    ∀ {l₁ l₂ : List Store}, l₁.Perm l₂ → List.Sorted storeLE l₁ →
      List.Sorted storeLE l₂ →
      List.Pairwise (fun a b => a.store_name ≠ b.store_name) l₁ → l₁ = l₂ := by
  intro l₁
  induction l₁ with
  | nil =>
    intro l₂ hp _ _ _
    exact hp.nil_eq
  | cons a tl ih =>
    intro l₂ hp hs₁ hs₂ hd
    cases l₂ with
    | nil => exact absurd hp.eq_nil (by simp)
    | cons b t₂ =>
      have hab : a = b := by
        by_contra hne
        have ha2 : a ∈ b :: t₂ := hp.subset (List.mem_cons_self a tl)
        have ha2' : a ∈ t₂ := by
          rcases List.mem_cons.mp ha2 with h | h
          · exact absurd h hne
          · exact h
        have hb1 : b ∈ a :: tl := hp.symm.subset (List.mem_cons_self b t₂)
        have hb1' : b ∈ tl := by
          rcases List.mem_cons.mp hb1 with h | h
          · exact absurd h.symm hne
          · exact h
        have hle1 : storeLE a b := (List.sorted_cons.mp hs₁).1 b hb1'
        have hle2 : storeLE b a := (List.sorted_cons.mp hs₂).1 a ha2'
        exact (List.pairwise_cons.mp hd).1 b hb1' (storeLE_antisymm_names hle1 hle2)
      subst hab
      have htl : tl = t₂ :=
        ih hp.cons_inv (List.sorted_cons.mp hs₁).2 (List.sorted_cons.mp hs₂).2
          (List.pairwise_cons.mp hd).2
      rw [htl]

/-! ## Filter engine: membership, sortedness, clause characterizations -/

theorem mem_filterAndSort {stores : List Store} {f : StoreFilters} {va : Bool}
    {s : Store} :
    s ∈ filterAndSort stores f va ↔ s ∈ stores ∧ filterPredicate f va s = true := by
  unfold filterAndSort
  rw [List.mem_insertionSort]
  exact List.mem_filter

theorem filterAndSort_sorted (stores : List Store) (f : StoreFilters) (va : Bool) :
    List.Sorted storeLE (filterAndSort stores f va) := by
  haveI : IsTotal Store storeLE := ⟨storeLE_total⟩
  haveI : IsTrans Store storeLE := ⟨fun _ _ _ => storeLE_trans⟩
  exact List.sorted_insertionSort storeLE _

theorem filterPredicate_true_iff (f : StoreFilters) (va : Bool) (s : Store) :
    filterPredicate f va s = true ↔
      matchesSearch f s = true ∧ matchesArchive va s = true ∧
        matchesTags f s = true ∧ matchesSale f s = true ∧
        matchesPrice f s = true ∧ matchesCustomFields f s = true := by
  unfold filterPredicate
  simp [Bool.and_eq_true, and_assoc]

theorem matchesPrice_true_iff (f : StoreFilters) (s : Store) :
    matchesPrice f s = true ↔
      f.priceRanges = [] ∨
        (s.priceRange ≠ "" ∧ ∃ b, getPriceBucket s.priceRange = some b ∧
          bucketId b ∈ f.priceRanges) := by
  unfold matchesPrice
  cases hb : getPriceBucket s.priceRange with
  | none => simp [hb, List.isEmpty_iff]
  | some b => simp [hb, List.isEmpty_iff, List.elem_iff, bne_iff_ne]

theorem matchesTags_true_iff (f : StoreFilters) (s : Store) :
    matchesTags f s = true ↔ ∀ tag ∈ f.tags, tag ∈ s.tags := by
  unfold matchesTags
  rw [Bool.or_eq_true, List.isEmpty_iff, List.all_eq_true]
  constructor
  · rintro (h | h)
    · intro tag htag; rw [h] at htag; cases htag
    · intro tag htag; exact List.elem_iff.mp (h tag htag)
  · intro h
    exact Or.inr (fun tag htag => List.elem_iff.mpr (h tag htag))

/-! ## Enrichment merger: projection lemmas -/

theorem mergeEnrichment_website (s e : Store) :
    (mergeEnrichment s e).website = (mergeWebsite s e).website := by
  unfold mergeEnrichment
  split <;> rfl

theorem mergeWebsite_description (s e : Store) :
    (mergeWebsite s e).description = s.description := by
  unfold mergeWebsite
  split <;> rfl

theorem websiteEmpty_bool (s : Store) :
    (s.website == "" || isSentinel s.website) = true ↔ websiteConsideredEmpty s := by
  simp [websiteConsideredEmpty]

theorem descriptionEmpty_bool (s : Store) :
    (s.description == "" || decide (s.description.length < 10)
        || isSentinel s.description) = true ↔ descriptionConsideredEmpty s := by
  simp [descriptionConsideredEmpty, or_assoc]

end BrandCurator

namespace BrandCurator

/-- C1: the enrichment merge accepts an enriched `website`/`description` only
when the existing field is empty per its field-specific definition; a
non-empty existing field is never changed, an empty one is always filled by a
non-empty enriched value, and accepted descriptions pass through
`formatDescription`. -/
theorem claim1_enrichment_merge_policy (s e : Store) :
    (¬ websiteConsideredEmpty s → (mergeEnrichment s e).website = s.website) ∧
    (websiteConsideredEmpty s → e.website ≠ "" →
      (mergeEnrichment s e).website = e.website) ∧
    (¬ descriptionConsideredEmpty s →
      (mergeEnrichment s e).description = s.description) ∧
    (descriptionConsideredEmpty s → e.description ≠ "" →
      (mergeEnrichment s e).description = formatDescription e.description) := by
  refine ⟨?_, ?_, ?_, ?_⟩
  · intro h
    have hx : ¬ ((e.website != "" && (s.website == "" || isSentinel s.website)) = true) :=
      fun hc => h ((websiteEmpty_bool s).mp (Bool.and_eq_true_iff.mp hc).2)
    rw [mergeEnrichment_website]
    unfold mergeWebsite
    rw [if_neg hx]
  · intro h hw
    have hx : (e.website != "" && (s.website == "" || isSentinel s.website)) = true :=
      Bool.and_eq_true_iff.mpr ⟨bne_iff_ne.mpr hw, (websiteEmpty_bool s).mpr h⟩
    rw [mergeEnrichment_website]
    unfold mergeWebsite
    rw [if_pos hx]
  · intro h
    have hx : ¬ ((e.description != ""
        && (s.description == "" || decide (s.description.length < 10)
              || isSentinel s.description)) = true) :=
      fun hc => h ((descriptionEmpty_bool s).mp (Bool.and_eq_true_iff.mp hc).2)
    unfold mergeEnrichment
    rw [if_neg hx]
    exact mergeWebsite_description s e
  · intro h hd
    have hx : (e.description != ""
        && (s.description == "" || decide (s.description.length < 10)
              || isSentinel s.description)) = true :=
      Bool.and_eq_true_iff.mpr ⟨bne_iff_ne.mpr hd, (descriptionEmpty_bool s).mpr h⟩
    unfold mergeEnrichment
    rw [if_pos hx]

/-- Witness for C1 at a concrete store (sentinel website, long non-sentinel
description) and a concrete enrichment payload. -/
theorem claim1_enrichment_merge_policy_witness :
    (mergeEnrichment
        { baseStore with website := "N/A", description := "An established boutique" }
        { baseStore with website := "http://a.example", description := "short" }).website
      = "http://a.example" ∧
    (mergeEnrichment
        { baseStore with website := "N/A", description := "An established boutique" }
        { baseStore with website := "http://a.example", description := "short" }).description
      = "An established boutique" :=
  ⟨(claim1_enrichment_merge_policy _ _).2.1 (by decide) (by decide),
    (claim1_enrichment_merge_policy _ _).2.2.1 (by decide)⟩

/-- C2 fails on the code: the existing description "ok" is only 2 characters,
below the 10-character minimum, so the merge overwrites it rather than keeping
it. -/
theorem claim2_merge_scenario_counterexample :
    ¬ ((mergeEnrichment { baseStore with website := "N/A", description := "ok" }
          { baseStore with website := "http://x.com", description := "new longer text" }).website
        = "http://x.com" ∧
      (mergeEnrichment { baseStore with website := "N/A", description := "ok" }
          { baseStore with website := "http://x.com", description := "new longer text" }).description
        = "ok") := by
  decide

/-- C2 amended: on this input the website becomes "http://x.com" and the
description, being shorter than 10 characters and hence empty, is replaced by
`formatDescription` of the enriched text. -/
theorem claim2_merge_scenario_amended :
    (mergeEnrichment { baseStore with website := "N/A", description := "ok" }
        { baseStore with website := "http://x.com", description := "new longer text" }).website
      = "http://x.com" ∧
    (mergeEnrichment { baseStore with website := "N/A", description := "ok" }
        { baseStore with website := "http://x.com", description := "new longer text" }).description
      = "new longer text" := by
  decide

/-- C3: the enrichment merge modifies at most `website` and `description`
(every other field of the merged store equals the existing store's), a store
with no matching enrichment entry passes through unchanged, and the merge is
evaluated independently per store. -/
theorem claim3_merge_frame (enriched stores : List Store) :
    (∀ s e, agreesOutsideEnrichment s (mergeEnrichment s e)) ∧
    (∀ s, (∀ e ∈ enriched, e.id ≠ s.id) → enrichStep enriched s = s) ∧
    enrichStores enriched stores = stores.map (enrichStep enriched) := by
  refine ⟨?_, ?_, rfl⟩
  · intro s e
    unfold agreesOutsideEnrichment mergeEnrichment mergeWebsite
    split <;> split <;>
      exact ⟨rfl, rfl, rfl, rfl, rfl, rfl, rfl, rfl, rfl, rfl, rfl, rfl, rfl, rfl,
        rfl, rfl⟩
  · intro s h
    have hnone : enriched.find? (fun e => e.id == s.id) = none :=
      List.find?_eq_none.mpr (fun e he => by simpa using h e he)
    unfold enrichStep
    rw [hnone]

/-- Witness for C3: a store whose id matches no enrichment entry passes
through `enrichStep` unchanged. -/
theorem claim3_merge_frame_witness :
    enrichStep [{ baseStore with id := "e9" }] baseStore = baseStore :=
  (claim3_merge_frame [{ baseStore with id := "e9" }] []).2.1 baseStore (by decide)

end BrandCurator

namespace BrandCurator

/-- C4: with a non-empty price facet, every store in the filter result
classifies into a selected bucket (so an empty or unclassifiable price never
matches); with an empty facet the price clause excludes nothing. -/
theorem claim4_price_facet (stores : List Store) (f : StoreFilters) (va : Bool)
    (s : Store) :
    (f.priceRanges = [] → matchesPrice f s = true) ∧
    (f.priceRanges ≠ [] → s ∈ filterAndSort stores f va →
      s.priceRange ≠ "" ∧ ∃ b, getPriceBucket s.priceRange = some b ∧
        bucketId b ∈ f.priceRanges) := by
  constructor
  · intro h
    rw [matchesPrice_true_iff]
    exact Or.inl h
  · intro hne hmem
    have hp := (mem_filterAndSort.mp hmem).2
    rw [filterPredicate_true_iff] at hp
    rcases (matchesPrice_true_iff f s).mp hp.2.2.2.2.1 with h | h
    · exact absurd h hne
    · exact h

/-- Witness for C4: the empty facet excludes nothing, and a "$$$" store found
while filtering on the "high" bucket indeed classifies into it. -/
theorem claim4_price_facet_witness :
    matchesPrice emptyFilters baseStore = true ∧
    (({ baseStore with priceRange := "$$$" } : Store).priceRange ≠ "" ∧
      ∃ b, getPriceBucket ({ baseStore with priceRange := "$$$" } : Store).priceRange
          = some b ∧
        bucketId b ∈ ({ emptyFilters with priceRanges := ["high"] } : StoreFilters).priceRanges) :=
  ⟨(claim4_price_facet [] emptyFilters false baseStore).1 rfl,
    (claim4_price_facet [{ baseStore with priceRange := "$$$" }]
        { emptyFilters with priceRanges := ["high"] } false
        { baseStore with priceRange := "$$$" }).2 (by decide) (by decide)⟩

/-- C5 fails on the code: adding a bucket to an *empty* `priceRanges`
activates the facet and can shrink the result set — a store with an empty
price passes the vacuous facet but is excluded once "low" is selected. -/
theorem claim5_monotonicity_counterexample :
    baseStore ∈ filterAndSort [baseStore] emptyFilters false ∧
    baseStore ∉
      filterAndSort [baseStore] { emptyFilters with priceRanges := ["low"] } false := by
  decide

/-- C5 amended: adding a tag always shrinks (or preserves) the result set;
adding a bucket enlarges (or preserves) it provided the facet was already
active (`priceRanges` non-empty). -/
theorem claim5_monotonicity_amended (stores : List Store) (f : StoreFilters)
    (va : Bool) (s : Store) (tg b : String) :
    (s ∈ filterAndSort stores { f with tags := tg :: f.tags } va →
      s ∈ filterAndSort stores f va) ∧
    (f.priceRanges ≠ [] → s ∈ filterAndSort stores f va →
      s ∈ filterAndSort stores { f with priceRanges := b :: f.priceRanges } va) := by
  constructor
  · intro hmem
    rcases mem_filterAndSort.mp hmem with ⟨hs, hp⟩
    rw [filterPredicate_true_iff] at hp
    obtain ⟨h1, h2, h3, h4, h5, h6⟩ := hp
    refine mem_filterAndSort.mpr ⟨hs, ?_⟩
    rw [filterPredicate_true_iff]
    refine ⟨h1, h2, ?_, h4, h5, h6⟩
    rw [matchesTags_true_iff] at h3 ⊢
    exact fun tag ht => h3 tag (List.mem_cons_of_mem _ ht)
  · intro hne hmem
    rcases mem_filterAndSort.mp hmem with ⟨hs, hp⟩
    rw [filterPredicate_true_iff] at hp
    obtain ⟨h1, h2, h3, h4, h5, h6⟩ := hp
    refine mem_filterAndSort.mpr ⟨hs, ?_⟩
    rw [filterPredicate_true_iff]
    refine ⟨h1, h2, h3, h4, ?_, h6⟩
    rw [matchesPrice_true_iff] at h5 ⊢
    rcases h5 with h | ⟨hpr, bk, hbk, hmem'⟩
    · exact absurd h hne
    · exact Or.inr ⟨hpr, bk, hbk, List.mem_cons_of_mem _ hmem'⟩

/-- Witness for C5 (amended): concrete instances of both monotonicity
directions. -/
theorem claim5_monotonicity_amended_witness :
    ({ baseStore with tags := ["a"] } : Store) ∈
        filterAndSort [{ baseStore with tags := ["a"] }] emptyFilters false ∧
    ({ baseStore with priceRange := "$$$" } : Store) ∈
      filterAndSort [{ baseStore with priceRange := "$$$" }]
        { emptyFilters with priceRanges := ["low", "high"] } false :=
  ⟨(claim5_monotonicity_amended [{ baseStore with tags := ["a"] }] emptyFilters false
      { baseStore with tags := ["a"] } "a" "x").1 (by decide),
    (claim5_monotonicity_amended [{ baseStore with priceRange := "$$$" }]
      { emptyFilters with priceRanges := ["high"] } false
      { baseStore with priceRange := "$$$" } "y" "low").2 (by decide) (by decide)⟩

/-- C6: a store appears in the filter result only when its `isArchived` flag
equals the archived-view flag — the two views are disjoint. -/
theorem claim6_archive_visibility (stores : List Store) (f : StoreFilters)
    (va : Bool) (s : Store) :
    s ∈ filterAndSort stores f va → s.isArchived = va := by
  intro h
  have hp := (mem_filterAndSort.mp h).2
  rw [filterPredicate_true_iff] at hp
  simpa [matchesArchive] using hp.2.1

/-- Witness for C6: an archived store found in the archived view is indeed
archived. -/
theorem claim6_archive_visibility_witness :
    ({ baseStore with isArchived := true } : Store).isArchived = true :=
  claim6_archive_visibility [{ baseStore with isArchived := true }] emptyFilters true
    { baseStore with isArchived := true } (by decide)

/-- C7: the custom-fields clause holds iff, for every filter field with a
non-empty option set, some selected store value for that field lies in the
requested options (OR within a field, AND across fields); empty option lists
impose no constraint, and a store with no values for a constrained field never
satisfies it. -/
theorem claim7_custom_fields (f : StoreFilters) (s : Store) :
    matchesCustomFields f s = true ↔
      ∀ p ∈ f.customFields, p.2 ≠ [] →
        ∃ v ∈ lookupCustomField s p.1, v ∈ p.2 := by
  unfold matchesCustomFields
  rw [List.all_eq_true]
  constructor
  · intro h p hp hne
    have hcl : (p.2.isEmpty
        || p.2.any fun opt => (lookupCustomField s p.1).contains opt) = true := h p hp
    rw [Bool.or_eq_true, List.isEmpty_iff, List.any_eq_true] at hcl
    rcases hcl with h' | ⟨opt, hopt, hmem⟩
    · exact absurd h' hne
    · exact ⟨opt, List.elem_iff.mp hmem, hopt⟩
  · intro h p hp
    show (p.2.isEmpty
        || p.2.any fun opt => (lookupCustomField s p.1).contains opt) = true
    rw [Bool.or_eq_true, List.isEmpty_iff, List.any_eq_true]
    by_cases hne : p.2 = []
    · exact Or.inl hne
    · rcases h p hp hne with ⟨v, hv1, hv2⟩
      exact Or.inr ⟨v, hv2, List.elem_iff.mpr hv1⟩

/-- Witness for C7 at a concrete filter and store. -/
theorem claim7_custom_fields_witness :
    matchesCustomFields { emptyFilters with customFields := [("Style", ["minimal"])] }
      { baseStore with customFields := [("Style", ["bold", "minimal"])] } = true :=
  (claim7_custom_fields _ _).mpr (by decide)

end BrandCurator

namespace BrandCurator

/-- C8 fails on the code: the sort is stable, so two distinct stores with
*identical* names keep their input order, and permuting the input permutes
the result. -/
theorem claim8_sort_counterexample :
    List.Perm [baseStore, { baseStore with id := "s2" }]
        [{ baseStore with id := "s2" }, baseStore] ∧
    filterAndSort [baseStore, { baseStore with id := "s2" }] emptyFilters false ≠
      filterAndSort [{ baseStore with id := "s2" }, baseStore] emptyFilters false :=
  ⟨List.Perm.swap _ _ _, by decide⟩

/-- C8 amended: the result is always sorted by `compareStoreNames` on
`store_name`, and it is independent of the input order whenever the store
names are pairwise distinct as raw strings (which covers names differing only
by case, since ties on the normalized key are broken by raw comparison). -/
theorem claim8_sort_amended (l₁ l₂ : List Store) (f : StoreFilters) (va : Bool) :
    List.Sorted storeLE (filterAndSort l₁ f va) ∧
    (l₁.Perm l₂ → List.Pairwise (fun a b => a.store_name ≠ b.store_name) l₁ →
      filterAndSort l₁ f va = filterAndSort l₂ f va) := by
  refine ⟨filterAndSort_sorted l₁ f va, ?_⟩
  intro hp hd
  have hfp : (l₁.filter (filterPredicate f va)).Perm
      (l₂.filter (filterPredicate f va)) := hp.filter _
  have h1 : (filterAndSort l₁ f va).Perm (l₁.filter (filterPredicate f va)) :=
    List.perm_insertionSort _ _
  have h2 : (filterAndSort l₂ f va).Perm (l₂.filter (filterPredicate f va)) :=
    List.perm_insertionSort _ _
  have hperm : (filterAndSort l₁ f va).Perm (filterAndSort l₂ f va) :=
    (h1.trans hfp).trans h2.symm
  have hd₁ : (l₁.filter (filterPredicate f va)).Pairwise
      (fun a b => a.store_name ≠ b.store_name) := hd.filter _
  have hdsort : (filterAndSort l₁ f va).Pairwise
      (fun a b => a.store_name ≠ b.store_name) :=
    (h1.pairwise_iff (fun {x y} h => fun he => h he.symm)).mpr hd₁
  exact sorted_perm_eq_of_distinct_names hperm (filterAndSort_sorted l₁ f va)
    (filterAndSort_sorted l₂ f va) hdsort

/-- Witness for C8 (amended): two distinct-name stores give the same sorted
result from either input order. -/
theorem claim8_sort_amended_witness :
    filterAndSort [{ baseStore with id := "s2", store_name := "Zen" }, baseStore]
        emptyFilters false
      = filterAndSort [baseStore, { baseStore with id := "s2", store_name := "Zen" }]
        emptyFilters false :=
  (claim8_sort_amended _ _ emptyFilters false).2 (List.Perm.swap _ _ _) (by decide)

/-- C9 fails on the code: `handleAddStore` discards the supplied description,
rating (and the other reset fields), and leaves the supplied tags completely
untransformed. -/
theorem claim9_normalization_counterexample :
    (handleAddStore rawNice "id9" "c9" addedByMain).description ≠ "A lovely shop" ∧
    (handleAddStore rawNice "id9" "c9" addedByMain).rating ≠ 4 ∧
    (handleAddStore rawNice "id9" "c9" addedByMain).tags ≠ ["red"] ∧
    (handleAddStore rawNice "id9" "c9" addedByMain).description = "" ∧
    (handleAddStore rawNice "id9" "c9" addedByMain).country = "" ∧
    (handleAddStore rawNice "id9" "c9" addedByMain).sustainability = "" ∧
    (handleAddStore rawNice "id9" "c9" addedByMain).rating = 0 ∧
    (handleAddStore rawNice "id9" "c9" addedByMain).customFields = [] ∧
    (handleAddStore rawNice "id9" "c9" addedByMain).tags = ["Red ", "red "] := by
  decide

/-- C9 amended: `handleAddStore` keeps only the supplied `priceRange` and the
supplied `tags` (verbatim, untransformed); `description`, `country`, `city`,
`sustainability`, `rating` and `customFields` are reset to neutral defaults
even when supplied.  On the import path the supplied tags are lowercased and
trimmed (but not deduplicated). -/
theorem claim9_normalization_amended (d : RawStore) (freshId collId : String)
    (user : AddedBy) :
    (∀ v, d.description = some v →
      (handleAddStore d freshId collId user).description = "") ∧
    (∀ v, d.country = some v → (handleAddStore d freshId collId user).country = "") ∧
    (∀ v, d.city = some v → (handleAddStore d freshId collId user).city = "") ∧
    (∀ v, d.sustainability = some v →
      (handleAddStore d freshId collId user).sustainability = "") ∧
    (∀ n, d.rating = some n → (handleAddStore d freshId collId user).rating = 0) ∧
    (∀ cf, d.customFields = some cf →
      (handleAddStore d freshId collId user).customFields = []) ∧
    (∀ v, d.priceRange = some v →
      (handleAddStore d freshId collId user).priceRange = v) ∧
    (∀ ts, d.tags = some ts → (handleAddStore d freshId collId user).tags = ts) ∧
    (∀ ts, d.tags = some ts → (importStore d freshId collId user).tags
      = ts.map (fun tg => trimStr (lowerStr tg))) := by
  refine ⟨fun v _ => rfl, fun v _ => rfl, fun v _ => rfl, fun v _ => rfl,
    fun n _ => rfl, fun cf _ => rfl, ?_, ?_, ?_⟩
  · intro v hv; simp [handleAddStore, hv]
  · intro ts hts; simp [handleAddStore, hts]
  · intro ts hts; simp [importStore, hts]

/-- Witness for C9 (amended) at the concrete raw payload. -/
theorem claim9_normalization_amended_witness :
    (handleAddStore rawNice "id9" "c9" addedByMain).description = "" ∧
    (handleAddStore rawNice "id9" "c9" addedByMain).priceRange = "$$" ∧
    (importStore rawNice "id9" "c9" addedByMain).tags = ["red", "red"] :=
  ⟨(claim9_normalization_amended rawNice "id9" "c9" addedByMain).1 "A lovely shop" rfl,
    (claim9_normalization_amended rawNice "id9" "c9"
        addedByMain).2.2.2.2.2.2.1 "$$" rfl,
    ((claim9_normalization_amended rawNice "id9" "c9"
        addedByMain).2.2.2.2.2.2.2.2 ["Red ", "red "] rfl).trans (by decide)⟩

/-- C10: single delete removes the store from the store list but leaves every
folio's `storeIds` unchanged; bulk delete removes the selected ids from both
the store list and every folio's `storeIds`, so afterwards no folio references
a deleted id. -/
theorem claim10_delete_frame (c : Collection) (sid : String) (sel : List String) :
    (handleDeleteStore sid c).folios = c.folios ∧
    (∀ s, s ∈ (handleDeleteStore sid c).stores ↔ s ∈ c.stores ∧ s.id ≠ sid) ∧
    (∀ s, s ∈ (handleBulkDelete sel c).stores ↔ s ∈ c.stores ∧ s.id ∉ sel) ∧
    List.Forall₂ (fun fl g => g.id = fl.id ∧ g.name = fl.name ∧
        g.themeId = fl.themeId ∧
        (∀ i, i ∈ g.storeIds ↔ i ∈ fl.storeIds ∧ i ∉ sel))
      c.folios (handleBulkDelete sel c).folios := by
  refine ⟨rfl, ?_, ?_, ?_⟩
  · intro s
    simp [handleDeleteStore, List.mem_filter, bne_iff_ne]
  · intro s
    simp [handleBulkDelete, List.mem_filter]
  · rw [show (handleBulkDelete sel c).folios
      = c.folios.map (fun fl =>
          { fl with storeIds := fl.storeIds.filter (fun i => !sel.contains i) })
      from rfl]
    rw [List.forall₂_map_right_iff, List.forall₂_same]
    intro fl _
    refine ⟨rfl, rfl, rfl, ?_⟩
    intro i
    simp [List.mem_filter]

/-- Witness for C10 at a concrete collection: deleting "s1" singly leaves the
folio intact, and bulk-deleting ["s1"] removes the store from the list. -/
theorem claim10_delete_frame_witness :
    (handleDeleteStore "s1" collX).folios = collX.folios ∧
    baseStore ∉ (handleBulkDelete ["s1"] collX).stores :=
  ⟨(claim10_delete_frame collX "s1" ["s1"]).1,
    fun h =>
      (((claim10_delete_frame collX "s1" ["s1"]).2.2.1 baseStore).mp h).2 (by decide)⟩

end BrandCurator
